import Mathlib

/-!
Verification development for the SkillMatch_AI scoring engine
(`src/utils.py`).  The Python functions are shallowly embedded: strings
are lists of characters, Python `float` scores are modelled as exact
rationals (`ℚ`) with `round(x, 2)` modelled as round-half-to-even on
hundredths, and the external spaCy embedding model is an oracle
parameter (`Model`).  Every definition follows the corresponding Python
source line by line; comments cite the source.
-/

/-- Strings are modelled as lists of characters (ASCII in all inputs of
interest), which keeps the Python string primitives executable and easy
to reason about by induction. -/
abbrev Str := List Char

/-- Convenience: build a `Str` from a Lean string literal. -/
def lit (s : String) : Str := s.toList

/-- Python whitespace for `str.strip`/`str.split` (ASCII part). -/
def pyIsSpace (c : Char) : Bool :=
  c = ' ' || c = '\t' || c = '\n' || c = '\x0d' || c = '\x0b' || c = '\x0c'

/-- Python `s.strip()`: remove leading and trailing whitespace. -/
def pyStrip (l : Str) : Str :=
  ((l.dropWhile pyIsSpace).reverse.dropWhile pyIsSpace).reverse

/-- Python `s.lower()` (ASCII case folding, all inputs of interest are ASCII). -/
def pyLower (l : Str) : Str := l.map Char.toLower

/-- Python `s.split(",")`: split on every comma, keeping empty pieces
(`"".split(",") == [""]`). -/
def splitOnComma : Str → List Str
  | [] => [[]]
  | c :: rest =>
    if c = ',' then [] :: splitOnComma rest
    else
      match splitOnComma rest with
      | t :: ts => (c :: t) :: ts
      | [] => [[c]]

/-- Required-skills parsing, utils.py lines 470 and 521:
`[s.strip() for s in str(job_skills).split(",") if s.strip()]`. -/
def parseSkills (js : Str) : List Str :=
  ((splitOnComma js).map pyStrip).filter (fun t => !(t.isEmpty))

/-- Python `sep.join(tokens)`. -/
def joinWith (sep : Str) : List Str → Str
  | [] => []
  | [t] => t
  | t :: u :: us => t ++ sep ++ joinWith sep (u :: us)

/-- Helper for `pySplitWs`: accumulate the current word (reversed). -/
def splitWsAux : Str → Str → List Str
  | [], cur => if cur.isEmpty then [] else [cur.reverse]
  | c :: rest, cur =>
    if pyIsSpace c then
      if cur.isEmpty then splitWsAux rest [] else cur.reverse :: splitWsAux rest []
    else splitWsAux rest (c :: cur)

/-- Python `s.split()` (no argument): split on whitespace runs, no empty
tokens.  Used by the fuzzy pass of `extract_skills` (line 487). -/
def pySplitWs (l : Str) : List Str := splitWsAux l []

/-- Does pattern `p` occur in `t` starting at index `i`? -/
def substrAt (t p : Str) (i : Nat) : Bool :=
  decide ((t.drop i).take p.length = p)

/-- Python `p in t` (substring containment), used at line 482
(`skill_lower in resume_text_lower`). -/
def containsSub (t p : Str) : Bool :=
  (List.range (t.length + 1)).any (substrAt t p)

/-- Regex word character `\w` (ASCII part): letters, digits, underscore. -/
def wordChar (c : Char) : Bool := c.isAlphanum || c = '_'

/-- Word-character test at an index; out of range counts as non-word. -/
def isWordAt (t : Str) (j : Nat) : Bool :=
  match t.get? j with
  | some c => wordChar c
  | none => false

/-- One candidate position of the word-boundary regex search with an
escaped (hence literal) pattern: the pattern occurs at `i` and there is
a `\b` boundary on each side.  `\b` holds where word-ness differs
between the adjacent characters (ends of string are non-word).  The
empty pattern never arises: `extract_skills` skips empty skills. -/
def wbMatchAt (t p : Str) (i : Nat) : Bool :=
  substrAt t p i &&
    (match p with
     | [] => false
     | c :: _ =>
       ((if i = 0 then false else isWordAt t (i - 1)) != wordChar c) &&
         (match p.getLast? with
          | some d => isWordAt t (i + p.length) != wordChar d
          | none => false))

/-- Word-boundary regex search of utils.py line 481 (re.search of the
pattern backslash-b skill backslash-b over the lowered resume):
it succeeds somewhere in the text. -/
def wbSearch (t p : Str) : Bool :=
  (List.range (t.length + 1)).any (wbMatchAt t p)

/-! ### Rounding

Python `round(x, 2)` on the exact (rational) value: round half to even
on hundredths.  All concrete counterexamples below sit far from the
half-way boundaries, so the idealisation agrees with binary floating
point there. -/

/-- Round half to even to the nearest integer.  Uses the computable
`Rat.floor` so that concrete scores evaluate inside the kernel. -/
def roundHalfEven (q : ℚ) : ℤ :=
  if q - Rat.floor q < 1/2 then Rat.floor q
  else if 1/2 < q - Rat.floor q then Rat.floor q + 1
  else if Rat.floor q % 2 = 0 then Rat.floor q else Rat.floor q + 1

/-- Python `round(x, 2)` (exact-value idealisation). -/
def round2 (q : ℚ) : ℚ := (roundHalfEven (q * 100) : ℚ) / 100

/-! ### `difflib.SequenceMatcher` (Python standard library)

`extract_skills` (line 490) calls `SequenceMatcher(None, skill_lower,
word).ratio()`.  The model below follows the CPython difflib source: `b2j`
maps each character of `b` to its (ascending) indices, with "popular"
characters dropped by the autojunk heuristic; `find_longest_match` runs
the `j2len` dynamic scan and then extends the best block over equal
characters (with `isjunk = None` the junk set is empty, so the two
junk-extension loops never fire); the ratio is `2*M/T` where `M` sums
the sizes of the recursively found matching blocks. -/

/-- Ascending indices of character `c` in `b` (difflib `b2j` entry). -/
def seqIndicesOf (b : Str) (c : Char) : List Nat :=
  (List.range b.length).filter (fun j => decide (b.get? j = some c))

/-- difflib autojunk: with `len(b) >= 200`, characters occurring more
than `len(b) // 100 + 1` times are dropped from `b2j`. -/
def isPopular (b : Str) (c : Char) : Bool :=
  decide (200 ≤ b.length) && decide (b.length / 100 + 1 < b.count c)

/-- Lookup into `b2j` after the autojunk filter. -/
def b2jGet (b : Str) (c : Char) : List Nat :=
  if isPopular b c then [] else seqIndicesOf b c

/-- Lookup in the `j2len` association map, defaulting to 0. -/
def lookupJ (m : List (Nat × Nat)) (j : Nat) : Nat :=
  match m.find? (fun kv => kv.1 == j) with
  | some kv => kv.2
  | none => 0

/-- Inner loop of `find_longest_match`: walk the ascending `b` indices
of `a[i]`, building the new `j2len` map and updating the best block
(ties keep the earlier block, via the strict greater-than of difflib). -/
def flmInner (j2len : List (Nat × Nat)) (i : Nat) :
    List Nat → List (Nat × Nat) → Nat × Nat × Nat → List (Nat × Nat) × (Nat × Nat × Nat)
  | [], nj, best => (nj, best)
  | j :: js, nj, best =>
    let prev := if j = 0 then 0 else lookupJ j2len (j - 1)
    let k := prev + 1
    let best2 := if k > best.2.2 then (i + 1 - k, j + 1 - k, k) else best
    flmInner j2len i js ((j, k) :: nj) best2

/-- Outer loop of `find_longest_match` over `i` in `[alo, ahi)`. -/
def flmOuter (a b : Str) (blo bhi : Nat) :
    List Nat → List (Nat × Nat) → Nat × Nat × Nat → Nat × Nat × Nat
  | [], _, best => best
  | i :: is, j2len, best =>
    let c := match a.get? i with | some c => c | none => ' '
    let js := (b2jGet b c).filter (fun j => decide (blo ≤ j) && decide (j < bhi))
    let st := flmInner j2len i js [] best
    flmOuter a b blo bhi is st.1 st.2

/-- Python slice `l[i:j]`. -/
def pySlice (l : Str) (i j : Nat) : Str := (l.take j).drop i

/-- Length of the longest common suffix of two strings (the leftward
extension loop of `find_longest_match`). -/
def commonBackLen (x y : Str) : Nat :=
  ((x.reverse.zip y.reverse).takeWhile (fun p => decide (p.1 = p.2))).length

/-- Length of the longest common front of two strings (the rightward
extension loop of `find_longest_match`). -/
def commonFrontLen (x y : Str) : Nat :=
  ((x.zip y).takeWhile (fun p => decide (p.1 = p.2))).length

/-- Model of `SequenceMatcher.find_longest_match(alo, ahi, blo, bhi)` returning
`(besti, bestj, bestsize)`. -/
def findLongestMatch (a b : Str) (alo ahi blo bhi : Nat) : Nat × Nat × Nat :=
  let core := flmOuter a b blo bhi (List.range' alo (ahi - alo)) [] (alo, blo, 0)
  let g := commonBackLen (pySlice a alo core.1) (pySlice b blo core.2.1)
  let bi := core.1 - g
  let bj := core.2.1 - g
  let bk := core.2.2 + g
  let h := commonFrontLen (pySlice a (bi + bk) ahi) (pySlice b (bj + bk) bhi)
  (bi, bj, bk + h)

/-- Total size of all matching blocks (`get_matching_blocks` recursion;
fuel bounds the recursion depth and is always supplied large enough). -/
def matchedTotal (a b : Str) : Nat → Nat → Nat → Nat → Nat → Nat
  | 0, _, _, _, _ => 0
  | fuel + 1, alo, ahi, blo, bhi =>
    let r := findLongestMatch a b alo ahi blo bhi
    if r.2.2 = 0 then 0
    else
      r.2.2 + matchedTotal a b fuel alo r.1 blo r.2.1 +
        matchedTotal a b fuel (r.1 + r.2.2) ahi (r.2.1 + r.2.2) bhi

/-- Model of `SequenceMatcher(None, a, b).ratio() = 2*M / (len(a)+len(b))`
(1.0 when both strings are empty). -/
def ratioOf (a b : Str) : ℚ :=
  let t := a.length + b.length
  if t = 0 then 1
  else ((2 * matchedTotal a b (t + 1) 0 a.length 0 b.length : Nat) : ℚ) / (t : ℚ)

/-! ### Configuration (`utils.py` class `Config`) and the model oracle -/

/-- Constant `Config.FUZZY_MATCH_THRESHOLD = 0.8`. -/
def FUZZY_MATCH_THRESHOLD : ℚ := 8/10

/-- Constant `Config.MAX_TEXT_LENGTH = 5000`. -/
def MAX_TEXT_LENGTH : Nat := 5000

/-- The external spaCy backend of `ResumeProcessor`: whether the model
loaded (`self.nlp`) and the `Doc.similarity` value for a pair of
(lowercased, truncated) texts.  The embedding is a pure oracle, so the
`lru_cache` on `get_similarity_score` is unobservable. -/
structure Model where
  nlpLoaded : Bool
  sim : Str → Str → ℚ

/-- Method `ResumeProcessor.get_similarity_score` (lines 51-66): return 0.0
when the model is missing or either input is whitespace-only; otherwise
embed the lowercased texts truncated to `MAX_TEXT_LENGTH` characters
and return `round(similarity * 100, 2)`. -/
def get_similarity_score (m : Model) (resume_text job_desc : Str) : ℚ :=
  if !m.nlpLoaded || (pyStrip resume_text).isEmpty || (pyStrip job_desc).isEmpty then 0
  else
    round2 (m.sim ((pyLower resume_text).take MAX_TEXT_LENGTH)
      ((pyLower job_desc).take MAX_TEXT_LENGTH) * 100)

/-- Function `get_match_score` (lines 336-345): 0.0 for empty inputs,
otherwise the cached similarity score of the processor. -/
def get_match_score (m : Model) (resume_text job_desc : Str) : ℚ :=
  if resume_text.isEmpty || job_desc.isEmpty then 0
  else get_similarity_score m resume_text job_desc

/-! ### Skill extraction (`extract_skills`, lines 464-495) -/

/-- Line 481-482: word-boundary regex hit or plain substring hit. -/
def skillMatchesDirect (resumeLower skillLower : Str) : Bool :=
  wbSearch resumeLower skillLower || containsSub resumeLower skillLower

/-- Lines 487-493: fuzzy fallback over whitespace words of length > 2,
matching when the `SequenceMatcher` ratio exceeds the 0.8 threshold. -/
def skillMatchesFuzzy (resumeLower skillLower : Str) : Bool :=
  (pySplitWs resumeLower).any
    (fun w => decide (2 < w.length) && decide (FUZZY_MATCH_THRESHOLD < ratioOf skillLower w))

/-- The `for skill in job_skills_list` loop of `extract_skills`: each
iteration appends the skill at most once (`continue` after the direct
hit, `break` after the first fuzzy hit). -/
def matchLoop (rl : Str) : List Str → List Str
  | [] => []
  | skill :: rest =>
    let sl := pyLower (pyStrip skill)
    if sl.isEmpty then matchLoop rl rest
    else if skillMatchesDirect rl sl then skill :: matchLoop rl rest
    else if skillMatchesFuzzy rl sl then skill :: matchLoop rl rest
    else matchLoop rl rest

/-- Function `extract_skills(resume_text, jd_skills)` (lines 464-495). -/
def extract_skills (resume_text jd_skills : Str) : List Str :=
  if resume_text.isEmpty || jd_skills.isEmpty then []
  else matchLoop (pyLower resume_text) (parseSkills jd_skills)

/-! ### Comprehensive scoring (`calculate_comprehensive_score`, 498-563) -/

/-- The result dictionary.  The short-circuit branch for empty input
(lines 511-518) builds a dictionary WITHOUT the `total_skills` and
`matched_count` keys, so those fields are `Option`-valued with `none`
meaning "key absent".  The `except` branch (lines 553-563) is
unreachable in the embedding (nothing raises) and is not modelled. -/
structure ScoreResult where
  overall_score : ℚ
  skill_match_score : ℚ
  context_match_score : ℚ
  matched_skills : List Str
  missing_skills : List Str
  total_skills : Option Nat
  matched_count : Option Nat

/-- Lines 531-537: use the job description when it is truthy (not None
and non-empty), else fall back to the space-joined skill list. -/
def contextScore (m : Model) (resume_text : Str) (job_skills_list : List Str)
    (job_description : Option Str) : ℚ :=
  match job_description with
  | some d =>
    if d.isEmpty then get_match_score m resume_text (joinWith [' '] job_skills_list)
    else get_match_score m resume_text d
  | none => get_match_score m resume_text (joinWith [' '] job_skills_list)

/-- Function `calculate_comprehensive_score(resume_text, job_skills,
job_description=None)` (lines 498-551). -/
def calculate_comprehensive_score (m : Model) (resume_text job_skills : Str)
    (job_description : Option Str) : ScoreResult :=
  if resume_text.isEmpty || job_skills.isEmpty then
    { overall_score := 0, skill_match_score := 0, context_match_score := 0,
      matched_skills := [], missing_skills := [],
      total_skills := none, matched_count := none }
  else
    let job_skills_list := parseSkills job_skills
    let matched_skills := extract_skills resume_text job_skills
    let missing_skills := job_skills_list.filter (fun s => decide (s ∉ matched_skills))
    let skill_match_percentage : ℚ :=
      if !job_skills_list.isEmpty then
        ((matched_skills.length : ℚ) / (job_skills_list.length : ℚ)) * 100
      else 0
    let context_match_percentage := contextScore m resume_text job_skills_list job_description
    let overall := skill_match_percentage * (6/10) + context_match_percentage * (4/10)
    { overall_score := round2 overall,
      skill_match_score := round2 skill_match_percentage,
      context_match_score := round2 context_match_percentage,
      matched_skills := matched_skills,
      missing_skills := missing_skills,
      total_skills := some job_skills_list.length,
      matched_count := some matched_skills.length }

/-! ### Skill recommendations (`generate_skill_recommendations`, 589-633) -/

/-- The fixed `skill_resources` mapping (lines 596-607), in insertion
order (Python dict iteration order). -/
def skill_resources : List (Str × Str) := [
  (lit "python", lit "Learn Python through Python.org tutorials, Codecademy, or Real Python"),
  (lit "machine learning", lit "Start with Coursera\x27s ML course, Kaggle Learn, or Fast.ai"),
  (lit "javascript", lit "Master JavaScript with MDN Web Docs, FreeCodeCamp, or JavaScript.info"),
  (lit "react", lit "Build React skills using official React docs, Scrimba, or React tutorials"),
  (lit "sql", lit "Practice SQL with W3Schools, SQLBolt, or HackerRank SQL challenges"),
  (lit "aws", lit "Get AWS certified through AWS Training, A Cloud Guru, or official AWS docs"),
  (lit "docker", lit "Learn containerization with Docker documentation and Docker Hub tutorials"),
  (lit "kubernetes", lit "Master orchestration with Kubernetes official tutorials and hands-on labs"),
  (lit "node.js", lit "Build backend skills with Node.js docs and Express.js tutorials"),
  (lit "git", lit "Version control mastery through Git documentation and GitHub Learning Lab")]

/-- Lines 609-622: one recommendation per missing skill; the first
resource whose key contains or is contained in the lowercased skill
wins, else the generic suggestion. -/
def recommendFor (skill : Str) : Str :=
  let sl := pyLower skill
  match skill_resources.find? (fun kv => containsSub sl kv.1 || containsSub kv.1 sl) with
  | some kv => lit "📚 **" ++ skill ++ lit "**: " ++ kv.2
  | none => lit "📚 **" ++ skill ++ lit "**: Search for online courses on Udemy, Coursera, or YouTube"

/-- Function `generate_skill_recommendations(missing_skills, job_title)`
with default title, lines 589-633. -/
def generate_skill_recommendations (missing_skills : List Str) (job_title : Str) : List Str :=
  if missing_skills.isEmpty then []
  else
    let recs := (missing_skills.take 5).map recommendFor
    let jt := pyLower job_title
    if !job_title.isEmpty && decide (recs.length < 5) then
      if [lit "data", lit "analyst", lit "scientist"].any (fun t => containsSub jt t) then
        recs ++ [lit "📊 Focus on data analysis tools and statistical knowledge"]
      else if [lit "developer", lit "engineer", lit "programmer"].any (fun t => containsSub jt t) then
        recs ++ [lit "💻 Practice coding challenges on LeetCode or HackerRank"]
      else if [lit "manager", lit "lead"].any (fun t => containsSub jt t) then
        recs ++ [lit "👥 Develop leadership and project management skills"]
      else recs
    else recs

/-- A concrete model oracle used for closed evaluations. -/
def m0 : Model := { nlpLoaded := true, sim := fun _ _ => 0 }

/-- The test applied by one iteration of the `extract_skills` loop
(lines 475-493): the re-stripped, lowered skill is nonempty and has a
direct or fuzzy hit in the lowered resume.  `matchLoop` is proved equal
to `List.filter (skillPred rl)` below. -/
def skillPred (rl skill : Str) : Bool :=
  !(pyLower (pyStrip skill)).isEmpty &&
    (skillMatchesDirect rl (pyLower (pyStrip skill)) ||
      skillMatchesFuzzy rl (pyLower (pyStrip skill)))

/-- Tokens of a large-scale input: 20001 required skills, exactly one
of which (`python`) occurs in the resume `python`. -/
def cexTokens : List Str := lit "python" :: List.replicate 20000 (lit "qqqq")

/-- The corresponding comma-separated job-skills string. -/
def cexJs : Str := joinWith [','] cexTokens

/-- A model oracle with constant similarity 1/2, used by witnesses. -/
def mW : Model := { nlpLoaded := true, sim := fun _ _ => 1/2 }

/-! ### Rounding lemmas -/

theorem ratFloor_eq (q : ℚ) : (Rat.floor q : ℤ) = ⌊q⌋ := rfl

theorem roundHalfEven_intCast (n : ℤ) : roundHalfEven (n : ℚ) = n := by
  unfold roundHalfEven
  simp [ratFloor_eq, Int.floor_intCast]

theorem roundHalfEven_nonneg {q : ℚ} (h : 0 ≤ q) : 0 ≤ roundHalfEven q := by
  have hf : (0 : ℤ) ≤ ⌊q⌋ := by
    rw [Int.le_floor]
    exact_mod_cast h
  unfold roundHalfEven
  rw [ratFloor_eq]
  split_ifs <;> omega

theorem roundHalfEven_ge_one {q : ℚ} (h : 1/2 < q) : 1 ≤ roundHalfEven q := by
  have h1 : (⌊q⌋ : ℚ) ≤ q := Int.floor_le q
  have h2 : q < ⌊q⌋ + 1 := Int.lt_floor_add_one q
  unfold roundHalfEven
  rw [ratFloor_eq]
  split_ifs with c1 c2 c3
  · have hq : (0 : ℚ) < (⌊q⌋ : ℚ) := by linarith
    have : (0 : ℤ) < ⌊q⌋ := by exact_mod_cast hq
    omega
  · have hq : (-1 : ℚ) < (⌊q⌋ : ℚ) := by linarith
    have : (-1 : ℤ) < ⌊q⌋ := by exact_mod_cast hq
    omega
  · have hq : (0 : ℚ) < (⌊q⌋ : ℚ) := by linarith
    have : (0 : ℤ) < ⌊q⌋ := by exact_mod_cast hq
    omega
  · have hq : (-1 : ℚ) < (⌊q⌋ : ℚ) := by linarith
    have : (-1 : ℤ) < ⌊q⌋ := by exact_mod_cast hq
    omega

theorem roundHalfEven_le_of_lt {q : ℚ} {n : ℤ} (h : q < (n : ℚ) + 1/2) :
    roundHalfEven q ≤ n := by
  have h1 : (⌊q⌋ : ℚ) ≤ q := Int.floor_le q
  have hfn : ⌊q⌋ ≤ n := by
    have hq : (⌊q⌋ : ℚ) < ((n : ℤ) : ℚ) + 1 := by linarith
    have : ⌊q⌋ < n + 1 := by exact_mod_cast hq
    omega
  unfold roundHalfEven
  rw [ratFloor_eq]
  split_ifs with c1 c2 c3
  · exact hfn
  · have hq : (⌊q⌋ : ℚ) < (n : ℚ) := by linarith
    have : ⌊q⌋ < n := by exact_mod_cast hq
    omega
  · exact hfn
  · have hge : (1 : ℚ)/2 ≤ q - ⌊q⌋ := by linarith
    have hq : (⌊q⌋ : ℚ) < (n : ℚ) := by linarith
    have : ⌊q⌋ < n := by exact_mod_cast hq
    omega

theorem round2_zero : round2 0 = 0 := by with_unfolding_all decide

theorem round2_hundred : round2 100 = 100 := by with_unfolding_all decide

theorem round2_nonneg {q : ℚ} (h : 0 ≤ q) : 0 ≤ round2 q := by
  unfold round2
  have h1 := roundHalfEven_nonneg (q := q * 100) (by positivity)
  have h2 : (0 : ℚ) ≤ (roundHalfEven (q * 100) : ℚ) := by exact_mod_cast h1
  linarith

theorem round2_le_hundred {q : ℚ} (h : q ≤ 100) : round2 q ≤ 100 := by
  unfold round2
  have hb : q * 100 < ((10000 : ℤ) : ℚ) + 1/2 := by push_cast; linarith
  have h1 := roundHalfEven_le_of_lt hb
  have h2 : (roundHalfEven (q * 100) : ℚ) ≤ ((10000 : ℤ) : ℚ) := by exact_mod_cast h1
  push_cast at h2
  linarith

theorem round2_pos {q : ℚ} (h : 1/200 < q) : 0 < round2 q := by
  unfold round2
  have h1 := roundHalfEven_ge_one (q := q * 100) (by linarith)
  have h2 : (1 : ℚ) ≤ (roundHalfEven (q * 100) : ℚ) := by exact_mod_cast h1
  linarith

theorem round2_lt_hundred {q : ℚ} (h : q < 100 - 1/200) : round2 q < 100 := by
  unfold round2
  have hb : q * 100 < ((9999 : ℤ) : ℚ) + 1/2 := by push_cast; linarith
  have h1 := roundHalfEven_le_of_lt hb
  have h2 : (roundHalfEven (q * 100) : ℚ) ≤ ((9999 : ℤ) : ℚ) := by exact_mod_cast h1
  push_cast at h2
  linarith

theorem round2_round2 (q : ℚ) : round2 (round2 q) = round2 q := by
  unfold round2
  rw [div_mul_cancel₀]
  · rw [roundHalfEven_intCast]
  · norm_num

/-! ### String and list lemmas -/

theorem splitOnComma_ne_nil (l : Str) : splitOnComma l ≠ [] := by
  induction l with
  | nil => simp [splitOnComma]
  | cons c rest ih =>
    unfold splitOnComma
    split_ifs
    · simp
    · cases h : splitOnComma rest with
      | nil => simp
      | cons t ts => simp

theorem splitOnComma_of_not_mem {l : Str} (h : ',' ∉ l) : splitOnComma l = [l] := by
  induction l with
  | nil => rfl
  | cons c rest ih =>
    have hc : c ≠ ',' := fun hc => h (hc ▸ List.mem_cons_self c rest)
    have hr : ',' ∉ rest := fun hm => h (List.mem_cons_of_mem c hm)
    unfold splitOnComma
    rw [if_neg hc, ih hr]

theorem splitOnComma_append {t : Str} (u : Str) (h : ',' ∉ t) :
    splitOnComma (t ++ ',' :: u) = t :: splitOnComma u := by
  induction t with
  | nil => simp [splitOnComma]
  | cons c rest ih =>
    have hc : c ≠ ',' := fun hc => h (hc ▸ List.mem_cons_self c rest)
    have hr : ',' ∉ rest := fun hm => h (List.mem_cons_of_mem c hm)
    simp only [List.cons_append]
    rw [splitOnComma, if_neg hc, ih hr]

theorem head?_dropWhile_not (p : Char → Bool) (l : Str) :
    ∀ c, (l.dropWhile p).head? = some c → p c = false := by
  induction l with
  | nil => intro c hc; simp [List.dropWhile] at hc
  | cons a rest ih =>
    intro c hc
    rw [List.dropWhile_cons] at hc
    by_cases hp : p a = true
    · rw [if_pos hp] at hc
      exact ih c hc
    · rw [if_neg hp] at hc
      simp at hc
      subst hc
      simpa using hp

theorem getLast?_dropWhile (p : Char → Bool) (l : Str)
    (h : l.dropWhile p ≠ []) : (l.dropWhile p).getLast? = l.getLast? := by
  induction l with
  | nil => simp [List.dropWhile] at h
  | cons a rest ih =>
    rw [List.dropWhile_cons] at h ⊢
    by_cases hp : p a = true
    · rw [if_pos hp] at h ⊢
      cases rest with
      | nil => simp [List.dropWhile] at h
      | cons b t => rw [ih h, List.getLast?_cons_cons]
    · rw [if_neg hp]

theorem dropWhile_eq_self_of_head? {p : Char → Bool} {l : Str}
    (h : ∀ c, l.head? = some c → p c = false) : l.dropWhile p = l := by
  cases l with
  | nil => rfl
  | cons a rest =>
    rw [List.dropWhile_cons, if_neg]
    simp [h a rfl]

theorem pyStrip_eq_self {l : Str}
    (hh : ∀ c, l.head? = some c → pyIsSpace c = false)
    (hl : ∀ c, l.getLast? = some c → pyIsSpace c = false) : pyStrip l = l := by
  unfold pyStrip
  rw [dropWhile_eq_self_of_head? hh]
  have h2 : l.reverse.dropWhile pyIsSpace = l.reverse := by
    apply dropWhile_eq_self_of_head?
    intro c hc
    rw [List.head?_reverse] at hc
    exact hl c hc
  rw [h2, List.reverse_reverse]

theorem pyStrip_idem (l : Str) : pyStrip (pyStrip l) = pyStrip l := by
  by_cases h0 : pyStrip l = []
  · rw [h0]; rfl
  · have hXne : (l.dropWhile pyIsSpace).reverse.dropWhile pyIsSpace ≠ [] := by
      intro he
      apply h0
      unfold pyStrip
      rw [he]
      rfl
    apply pyStrip_eq_self
    · intro c hc
      unfold pyStrip at hc
      rw [List.head?_reverse, getLast?_dropWhile _ _ hXne, List.getLast?_reverse] at hc
      exact head?_dropWhile_not _ _ c hc
    · intro c hc
      unfold pyStrip at hc
      rw [List.getLast?_reverse] at hc
      exact head?_dropWhile_not _ _ c hc

theorem splitOnComma_join {toks : List Str} (hne : toks ≠ [])
    (h : ∀ t ∈ toks, ',' ∉ t) :
    splitOnComma (joinWith [','] toks) = toks := by
  induction toks with
  | nil => exact absurd rfl hne
  | cons t rest ih =>
    cases rest with
    | nil => exact splitOnComma_of_not_mem (h t (by simp))
    | cons u us =>
      have step : joinWith [','] (t :: u :: us) = t ++ ',' :: joinWith [','] (u :: us) := by
        rw [joinWith, List.append_assoc]
        rfl
      rw [step, splitOnComma_append _ (h t (by simp)),
        ih (by simp) (fun x hx => h x (by simp [hx]))]

theorem map_pyStrip_eq_self {ts : List Str} (h : ∀ t ∈ ts, pyStrip t = t) :
    ts.map pyStrip = ts := by
  induction ts with
  | nil => rfl
  | cons a as ih =>
    simp only [List.map_cons, h a (by simp), ih (fun x hx => h x (by simp [hx]))]

theorem parseSkills_join {toks : List Str} (hne : toks ≠ [])
    (h : ∀ t ∈ toks, ',' ∉ t ∧ pyStrip t = t ∧ t ≠ []) :
    parseSkills (joinWith [','] toks) = toks := by
  unfold parseSkills
  rw [splitOnComma_join hne (fun t ht => (h t ht).1),
    map_pyStrip_eq_self (fun t ht => (h t ht).2.1)]
  apply List.filter_eq_self.mpr
  intro a ha
  simp only [Bool.not_eq_true']
  simp [List.isEmpty_iff]
  exact (h a ha).2.2

theorem matchLoop_eq_filter (rl : Str) (l : List Str) :
    matchLoop rl l = l.filter (skillPred rl) := by
  induction l with
  | nil => rfl
  | cons skill rest ih =>
    simp only [matchLoop, List.filter_cons, ih, skillPred]
    by_cases h1 : (pyLower (pyStrip skill)).isEmpty = true
    · simp [h1]
    · by_cases h2 : skillMatchesDirect rl (pyLower (pyStrip skill)) = true
      · simp [h1, h2]
      · by_cases h3 : skillMatchesFuzzy rl (pyLower (pyStrip skill)) = true
        · simp [h1, h2, h3]
        · simp [h1, h2, h3]

theorem extract_eq_filter {resume js : Str} (hr : resume ≠ []) (hj : js ≠ []) :
    extract_skills resume js = (parseSkills js).filter (skillPred (pyLower resume)) := by
  have hcond : (resume.isEmpty || js.isEmpty) = false := by
    simp [List.isEmpty_iff, hr, hj]
  simp only [extract_skills, hcond, Bool.false_eq_true, if_false]
  exact matchLoop_eq_filter _ _

theorem parseSkills_nil : parseSkills [] = [] := rfl

theorem js_ne_nil_of_parse {js : Str} (hp : parseSkills js ≠ []) : js ≠ [] := by
  intro h
  subst h
  exact hp parseSkills_nil

theorem calc_eq (m : Model) (resume js : Str) (jd : Option Str)
    (hr : resume ≠ []) (hj : js ≠ []) :
    calculate_comprehensive_score m resume js jd =
      { overall_score := round2 ((if !(parseSkills js).isEmpty then
            (((extract_skills resume js).length : ℚ) /
              ((parseSkills js).length : ℚ)) * 100 else 0) * (6/10) +
          contextScore m resume (parseSkills js) jd * (4/10)),
        skill_match_score := round2 (if !(parseSkills js).isEmpty then
            (((extract_skills resume js).length : ℚ) /
              ((parseSkills js).length : ℚ)) * 100 else 0),
        context_match_score := round2 (contextScore m resume (parseSkills js) jd),
        matched_skills := extract_skills resume js,
        missing_skills := (parseSkills js).filter
          (fun s => decide (s ∉ extract_skills resume js)),
        total_skills := some (parseSkills js).length,
        matched_count := some (extract_skills resume js).length } := by
  have hcond : (resume.isEmpty || js.isEmpty) = false := by
    simp [List.isEmpty_iff, hr, hj]
  simp only [calculate_comprehensive_score, hcond, Bool.false_eq_true, if_false]

theorem round2_get_match_score (m : Model) (a b : Str) :
    round2 (get_match_score m a b) = get_match_score m a b := by
  unfold get_match_score
  split_ifs
  · exact round2_zero
  · unfold get_similarity_score
    split_ifs
    · exact round2_zero
    · exact round2_round2 _

theorem get_match_score_bounds (m : Model)
    (hm : ∀ a b, 0 ≤ m.sim a b ∧ m.sim a b ≤ 1) (a b : Str) :
    0 ≤ get_match_score m a b ∧ get_match_score m a b ≤ 100 := by
  unfold get_match_score get_similarity_score
  split_ifs
  · norm_num
  · norm_num
  · constructor
    · apply round2_nonneg
      nlinarith [(hm ((pyLower a).take MAX_TEXT_LENGTH)
        ((pyLower b).take MAX_TEXT_LENGTH)).1]
    · apply round2_le_hundred
      nlinarith [(hm ((pyLower a).take MAX_TEXT_LENGTH)
        ((pyLower b).take MAX_TEXT_LENGTH)).2]

theorem contextScore_bounds (m : Model)
    (hm : ∀ a b, 0 ≤ m.sim a b ∧ m.sim a b ≤ 1)
    (resume : Str) (jobs : List Str) (jd : Option Str) :
    0 ≤ contextScore m resume jobs jd ∧ contextScore m resume jobs jd ≤ 100 := by
  cases jd with
  | none =>
    simp only [contextScore]
    exact get_match_score_bounds m hm _ _
  | some d =>
    simp only [contextScore]
    split_ifs <;> exact get_match_score_bounds m hm _ _

theorem calc_matched (m : Model) (resume js : Str) (jd : Option Str)
    (hr : resume ≠ []) (hj : js ≠ []) :
    (calculate_comprehensive_score m resume js jd).matched_skills =
      extract_skills resume js := by
  rw [calc_eq m resume js jd hr hj]

theorem calc_missing (m : Model) (resume js : Str) (jd : Option Str)
    (hr : resume ≠ []) (hj : js ≠ []) :
    (calculate_comprehensive_score m resume js jd).missing_skills =
      (parseSkills js).filter (fun s => decide (s ∉ extract_skills resume js)) := by
  rw [calc_eq m resume js jd hr hj]

theorem calc_skill_score (m : Model) (resume js : Str) (jd : Option Str)
    (hr : resume ≠ []) (hj : js ≠ []) :
    (calculate_comprehensive_score m resume js jd).skill_match_score =
      round2 (if !(parseSkills js).isEmpty then
        (((extract_skills resume js).length : ℚ) /
          ((parseSkills js).length : ℚ)) * 100 else 0) := by
  rw [calc_eq m resume js jd hr hj]

theorem calc_context (m : Model) (resume js : Str) (jd : Option Str)
    (hr : resume ≠ []) (hj : js ≠ []) :
    (calculate_comprehensive_score m resume js jd).context_match_score =
      round2 (contextScore m resume (parseSkills js) jd) := by
  rw [calc_eq m resume js jd hr hj]

theorem calc_overall (m : Model) (resume js : Str) (jd : Option Str)
    (hr : resume ≠ []) (hj : js ≠ []) :
    (calculate_comprehensive_score m resume js jd).overall_score =
      round2 ((if !(parseSkills js).isEmpty then
          (((extract_skills resume js).length : ℚ) /
            ((parseSkills js).length : ℚ)) * 100 else 0) * (6/10) +
        contextScore m resume (parseSkills js) jd * (4/10)) := by
  rw [calc_eq m resume js jd hr hj]

/-! ### Claim C1 -/

/-- C1 counterexample: with resume text `""` and job skills `"Python"`
(whose parsed required list `["Python"]` is non-empty), the
short-circuit branch of `calculate_comprehensive_score` returns
`missing_skills = []`, not the full required list demanded by the
claim. -/
theorem C1_counterexample :
    parseSkills (lit "Python") = [lit "Python"] ∧
    (calculate_comprehensive_score m0 [] (lit "Python") none).missing_skills = [] ∧
    (calculate_comprehensive_score m0 [] (lit "Python") none).missing_skills ≠
      parseSkills (lit "Python") := by
  refine ⟨by decide, by decide, by decide⟩

/-- C1 (amended): for every job skills string whose parsed required
list is non-empty, calling `calculate_comprehensive_score` with empty
resume text returns `overall_score = 0.0`, `matched_skills = []` and
`missing_skills = []` — the short-circuit returns an EMPTY missing
list, not the full required skill list. -/
theorem C1_amended_thm (m : Model) (js : Str) (jd : Option Str)
    (_h : parseSkills js ≠ []) :
    (calculate_comprehensive_score m [] js jd).overall_score = 0 ∧
    (calculate_comprehensive_score m [] js jd).matched_skills = [] ∧
    (calculate_comprehensive_score m [] js jd).missing_skills = [] := by
  simp [calculate_comprehensive_score]

/-- C1 witness: the amended statement instantiated at job skills
`"Python"`. -/
theorem C1_witness :
    parseSkills (lit "Python") ≠ [] ∧
    ((calculate_comprehensive_score m0 [] (lit "Python") none).overall_score = 0 ∧
     (calculate_comprehensive_score m0 [] (lit "Python") none).matched_skills = [] ∧
     (calculate_comprehensive_score m0 [] (lit "Python") none).missing_skills = []) :=
  ⟨by decide, C1_amended_thm m0 (lit "Python") none (by decide)⟩

/-! ### Claim C2 -/

/-- C2 (code bug): at the failing input `resume_text = ""`,
`job_skills = "Python"`, the short-circuit dictionary (lines 512-518)
carries zeroed scores and empty skill lists but OMITS the
`total_skills` and `matched_count` keys (modelled as `none`), while the
claim requires every MatchResult field present with both counts 0.  The
exception branch of the function itself (lines 555-563) returns all seven keys,
and its only caller `calculate_resume_job_match` (lines 414-415) reads
both keys unconditionally — with an empty resume it hits a `KeyError`
and degrades to an error result — so the omission is a slip in the
short-circuit branch. -/
theorem C2_failing_eval :
    (calculate_comprehensive_score m0 [] (lit "Python") none).total_skills = none ∧
    (calculate_comprehensive_score m0 [] (lit "Python") none).matched_count = none ∧
    (calculate_comprehensive_score m0 [] (lit "Python") none).overall_score = 0 ∧
    (calculate_comprehensive_score m0 [] (lit "Python") none).skill_match_score = 0 ∧
    (calculate_comprehensive_score m0 [] (lit "Python") none).context_match_score = 0 ∧
    (calculate_comprehensive_score m0 [] (lit "Python") none).matched_skills = [] ∧
    (calculate_comprehensive_score m0 [] (lit "Python") none).missing_skills = [] := by
  with_unfolding_all decide

/-! ### Claim C3 -/

/-- C3: for every non-empty resume text and non-empty job skills
string, the matched and missing skill lists of
`calculate_comprehensive_score` partition the parsed required list:
their union is the required list as sets, and their intersection is
empty. -/
theorem C3_thm (m : Model) (resume js : Str) (jd : Option Str)
    (hr : resume ≠ []) (hj : js ≠ []) :
    (calculate_comprehensive_score m resume js jd).matched_skills.toFinset ∪
      (calculate_comprehensive_score m resume js jd).missing_skills.toFinset =
      (parseSkills js).toFinset ∧
    (calculate_comprehensive_score m resume js jd).matched_skills.toFinset ∩
      (calculate_comprehensive_score m resume js jd).missing_skills.toFinset = ∅ := by
  rw [calc_matched m resume js jd hr hj, calc_missing m resume js jd hr hj]
  have hm : ∀ s : Str, s ∈ extract_skills resume js →
      s ∈ parseSkills js := by
    intro s hs
    rw [extract_eq_filter hr hj, List.mem_filter] at hs
    exact hs.1
  constructor
  · apply Finset.ext
    intro s
    simp only [Finset.mem_union, List.mem_toFinset, List.mem_filter,
      decide_eq_true_iff]
    constructor
    · rintro (hs | hs)
      · exact hm s hs
      · exact hs.1
    · intro hs
      by_cases hmem : s ∈ extract_skills resume js
      · exact Or.inl hmem
      · exact Or.inr ⟨hs, hmem⟩
  · apply Finset.eq_empty_iff_forall_not_mem.mpr
    intro s hs
    rw [Finset.mem_inter, List.mem_toFinset, List.mem_toFinset] at hs
    obtain ⟨h1, h2⟩ := hs
    rw [List.mem_filter, decide_eq_true_iff] at h2
    exact h2.2 h1

/-- C3 witness: the partition property at the end-to-end scenario 1
inputs of the spec. -/
theorem C3_witness :
    (lit "i have python and sql") ≠ ([] : Str) ∧ (lit "Python, SQL, Java") ≠ ([] : Str) ∧
    ((calculate_comprehensive_score m0 (lit "i have python and sql")
        (lit "Python, SQL, Java") none).matched_skills.toFinset ∪
      (calculate_comprehensive_score m0 (lit "i have python and sql")
        (lit "Python, SQL, Java") none).missing_skills.toFinset =
      (parseSkills (lit "Python, SQL, Java")).toFinset ∧
     (calculate_comprehensive_score m0 (lit "i have python and sql")
        (lit "Python, SQL, Java") none).matched_skills.toFinset ∩
      (calculate_comprehensive_score m0 (lit "i have python and sql")
        (lit "Python, SQL, Java") none).missing_skills.toFinset = ∅) :=
  ⟨by decide, by decide,
    C3_thm m0 (lit "i have python and sql") (lit "Python, SQL, Java") none
      (by decide) (by decide)⟩

/-! ### Claim C6 -/

/-- C6: whenever either input to the similarity scorers is empty or
whitespace-only, `get_similarity_score` and `get_match_score` both
return exactly 0.0; moreover the result is the same for every model
oracle, i.e. the underlying embedding model is never consulted. -/
theorem C6_thm (m : Model) (r d : Str) (h : pyStrip r = [] ∨ pyStrip d = []) :
    get_similarity_score m r d = 0 ∧ get_match_score m r d = 0 ∧
    (∀ m2 : Model, get_similarity_score m2 r d = 0 ∧ get_match_score m2 r d = 0) := by
  have hsim : ∀ m2 : Model, get_similarity_score m2 r d = 0 := by
    intro m2
    unfold get_similarity_score
    rcases h with h | h <;> simp [h]
  have hmatch : ∀ m2 : Model, get_match_score m2 r d = 0 := by
    intro m2
    unfold get_match_score
    split_ifs
    · rfl
    · exact hsim m2
  exact ⟨hsim m, hmatch m, fun m2 => ⟨hsim m2, hmatch m2⟩⟩

/-- C6 witness: a whitespace-only resume against a real description. -/
theorem C6_witness :
    (pyStrip (lit "  ") = [] ∨ pyStrip (lit "a job description") = []) ∧
    (get_similarity_score m0 (lit "  ") (lit "a job description") = 0 ∧
     get_match_score m0 (lit "  ") (lit "a job description") = 0 ∧
     (∀ m2 : Model, get_similarity_score m2 (lit "  ") (lit "a job description") = 0 ∧
       get_match_score m2 (lit "  ") (lit "a job description") = 0)) :=
  ⟨Or.inl (by decide),
    C6_thm m0 (lit "  ") (lit "a job description") (Or.inl (by decide))⟩

/-! ### Claim C7 -/

/-- C7: every skill produced by the required-skills parser is a
non-empty, fully trimmed token (so no empty-string entries survive and
casing is whatever the input had), and the concrete string
`"Python,,SQL,"` parses to exactly `["Python", "SQL"]`. -/
theorem C7_thm (js t : Str) (h : t ∈ parseSkills js) :
    (t ≠ [] ∧ pyStrip t = t) ∧
    parseSkills (lit "Python,,SQL,") = [lit "Python", lit "SQL"] := by
  constructor
  · unfold parseSkills at h
    rw [List.mem_filter] at h
    obtain ⟨hmem, hne⟩ := h
    rw [List.mem_map] at hmem
    obtain ⟨s, -, rfl⟩ := hmem
    refine ⟨?_, pyStrip_idem s⟩
    simpa [List.isEmpty_iff] using hne
  · decide

/-- C7 witness: the token `"SQL"` of the concrete example. -/
theorem C7_witness :
    (lit "SQL") ∈ parseSkills (lit "Python,,SQL,") ∧
    (((lit "SQL") ≠ [] ∧ pyStrip (lit "SQL") = lit "SQL") ∧
     parseSkills (lit "Python,,SQL,") = [lit "Python", lit "SQL"]) :=
  ⟨by decide, C7_thm (lit "Python,,SQL,") (lit "SQL") (by decide)⟩

/-! ### Claim C8 -/

/-- C8 counterexample: `extract_skills` appends one entry per
occurrence in the job-skills list and never deduplicates, so the
duplicated required skill `"Python"` yields the duplicated matched list
`["Python", "Python"]`. -/
theorem C8_counterexample :
    extract_skills (lit "python") (lit "Python, Python") =
      [lit "Python", lit "Python"] ∧
    ¬ (extract_skills (lit "python") (lit "Python, Python")).Nodup := by
  exact ⟨by decide, by decide⟩

/-- C8 (amended): the matched list is an order-preserving sublist of
the parsed required list, with at most one entry per occurrence of a
required skill; hence it is duplicate-free whenever the parsed job
skills list itself is duplicate-free.  When the job skills string lists
the same skill twice, the matched list repeats it. -/
theorem C8_amended_thm (resume js : Str) (h : (parseSkills js).Nodup) :
    (extract_skills resume js).Sublist (parseSkills js) ∧
    (extract_skills resume js).Nodup := by
  by_cases hc : resume = [] ∨ js = []
  · have he : extract_skills resume js = [] := by
      unfold extract_skills
      rcases hc with h' | h' <;> simp [h']
    rw [he]
    exact ⟨List.nil_sublist _, List.nodup_nil⟩
  · push_neg at hc
    rw [extract_eq_filter hc.1 hc.2]
    exact ⟨List.filter_sublist _, h.filter _⟩

/-- C8 witness: a duplicate-free job skills list. -/
theorem C8_witness :
    (parseSkills (lit "Python, SQL")).Nodup ∧
    ((extract_skills (lit "python") (lit "Python, SQL")).Sublist
       (parseSkills (lit "Python, SQL")) ∧
     (extract_skills (lit "python") (lit "Python, SQL")).Nodup) :=
  ⟨by decide, C8_amended_thm (lit "python") (lit "Python, SQL") (by decide)⟩

/-! ### Claim C9 -/

/-- C9: `generate_skill_recommendations` returns at most 5 strings (at
most one recommendation for each of the first 5 missing skills, plus at
most one role-based suggestion only when fewer than 5 were produced),
and an empty missing-skill list returns `[]` for every job title. -/
theorem C9_thm (missing_skills : List Str) (job_title : Str) :
    (generate_skill_recommendations missing_skills job_title).length ≤ 5 ∧
    (missing_skills = [] →
      generate_skill_recommendations missing_skills job_title = []) := by
  have hlen : ((missing_skills.take 5).map recommendFor).length ≤ 5 := by
    simp only [List.length_map, List.length_take]
    omega
  constructor
  · by_cases h1 : missing_skills.isEmpty = true
    · simp [generate_skill_recommendations, h1]
    · simp only [generate_skill_recommendations, h1, Bool.false_eq_true, if_false]
      split_ifs with h2 h3 h4 h5
      · rw [Bool.and_eq_true] at h2
        have h6 := of_decide_eq_true h2.2
        simp only [List.length_append, List.length_singleton]
        omega
      · rw [Bool.and_eq_true] at h2
        have h6 := of_decide_eq_true h2.2
        simp only [List.length_append, List.length_singleton]
        omega
      · rw [Bool.and_eq_true] at h2
        have h6 := of_decide_eq_true h2.2
        simp only [List.length_append, List.length_singleton]
        omega
      · exact hlen
      · exact hlen
  · intro h
    subst h
    rfl

/-- C9 witness: the empty missing list with a data-analyst title. -/
theorem C9_witness :
    (generate_skill_recommendations [] (lit "data analyst")).length ≤ 5 ∧
    generate_skill_recommendations [] (lit "data analyst") = [] :=
  ⟨(C9_thm [] (lit "data analyst")).1, (C9_thm [] (lit "data analyst")).2 rfl⟩

/-! ### Claim C10 -/

/-- C10: a non-empty but whitespace-only job description (such as " ")
is truthy, so `calculate_comprehensive_score` scores the resume against
the DESCRIPTION (not the joined-skills fallback), and since the
description strips to empty, the resulting context match score is
exactly 0.0 — for every model oracle. -/
theorem C10_thm (m : Model) (resume js d : Str)
    (hr : resume ≠ []) (hj : js ≠ []) (hd : d ≠ []) (hws : pyStrip d = []) :
    contextScore m resume (parseSkills js) (some d) =
      get_match_score m resume d ∧
    get_match_score m resume d = 0 ∧
    (calculate_comprehensive_score m resume js (some d)).context_match_score = 0 := by
  have hdne : ¬(d.isEmpty = true) := by simp [List.isEmpty_iff, hd]
  have hbranch : contextScore m resume (parseSkills js) (some d) =
      get_match_score m resume d := by
    simp only [contextScore, if_neg hdne]
  have hzero : get_match_score m resume d = 0 := by
    unfold get_match_score
    split_ifs
    · rfl
    · simp [get_similarity_score, hws]
  refine ⟨hbranch, hzero, ?_⟩
  rw [calc_context m resume js (some d) hr hj, hbranch, hzero, round2_zero]

/-- C10 witness: resume `"resume x"`, skills `"Python, SQL"`,
description `" "`. -/
theorem C10_witness :
    (lit "resume x") ≠ ([] : Str) ∧ (lit "Python, SQL") ≠ ([] : Str) ∧
    (lit " ") ≠ ([] : Str) ∧ pyStrip (lit " ") = [] ∧
    (contextScore m0 (lit "resume x") (parseSkills (lit "Python, SQL"))
        (some (lit " ")) = get_match_score m0 (lit "resume x") (lit " ") ∧
     get_match_score m0 (lit "resume x") (lit " ") = 0 ∧
     (calculate_comprehensive_score m0 (lit "resume x") (lit "Python, SQL")
        (some (lit " "))).context_match_score = 0) :=
  ⟨by decide, by decide, by decide, by decide,
    C10_thm m0 (lit "resume x") (lit "Python, SQL") (lit " ")
      (by decide) (by decide) (by decide) (by decide)⟩

theorem round2_contextScore (m : Model) (resume : Str) (jobs : List Str)
    (jd : Option Str) :
    round2 (contextScore m resume jobs jd) = contextScore m resume jobs jd := by
  cases jd with
  | none =>
    simp only [contextScore]
    exact round2_get_match_score m resume _
  | some d =>
    simp only [contextScore]
    split_ifs <;> exact round2_get_match_score m resume _

/-! ### Claim C5 -/

set_option maxRecDepth 30000 in
/-- C5 counterexample: the resume `"aaa bbb ccc"` matches exactly 3 of
the 7 required skills and the whitespace-only description `" "` gives
context 0.  The code computes `overall_score` from the UNROUNDED skill
percentage: `round2(0.6·(300/7) + 0.4·0) = 25.71`, while the claimed
formula uses the rounded components:
`round2(0.6·42.86 + 0.4·0) = 25.72` — a discrepancy of a full
hundredth, beyond floating rounding tolerance. -/
theorem C5_counterexample :
    (calculate_comprehensive_score m0 (lit "aaa bbb ccc")
      (lit "aaa, bbb, ccc, ddd, eee, fff, ggg") (some (lit " "))).overall_score =
      2571/100 ∧
    round2 ((6/10) *
        (calculate_comprehensive_score m0 (lit "aaa bbb ccc")
          (lit "aaa, bbb, ccc, ddd, eee, fff, ggg")
          (some (lit " "))).skill_match_score +
      (4/10) *
        (calculate_comprehensive_score m0 (lit "aaa bbb ccc")
          (lit "aaa, bbb, ccc, ddd, eee, fff, ggg")
          (some (lit " "))).context_match_score) = 2572/100 ∧
    (2571/100 : ℚ) ≠ 2572/100 := by
  have hr : (lit "aaa bbb ccc") ≠ ([] : Str) := by decide
  have hj : (lit "aaa, bbb, ccc, ddd, eee, fff, ggg") ≠ ([] : Str) := by decide
  have hparse : parseSkills (lit "aaa, bbb, ccc, ddd, eee, fff, ggg") =
      [lit "aaa", lit "bbb", lit "ccc", lit "ddd", lit "eee", lit "fff",
        lit "ggg"] := by decide
  have hextr : extract_skills (lit "aaa bbb ccc")
      (lit "aaa, bbb, ccc, ddd, eee, fff, ggg") =
      [lit "aaa", lit "bbb", lit "ccc"] := by with_unfolding_all decide
  have hdne : ¬((lit " ").isEmpty = true) := by decide
  have hctx0 : contextScore m0 (lit "aaa bbb ccc")
      (parseSkills (lit "aaa, bbb, ccc, ddd, eee, fff, ggg"))
      (some (lit " ")) = 0 := by
    simp only [contextScore, if_neg hdne]
    unfold get_match_score
    rw [if_neg (by decide)]
    unfold get_similarity_score
    rw [if_pos (by decide)]
  refine ⟨?_, ?_, by norm_num⟩
  · rw [calc_overall m0 _ _ _ hr hj, hctx0, hparse, hextr]
    simp only [List.isEmpty_cons, Bool.not_false, if_true, List.length_cons,
      List.length_nil]
    simp only [round2, roundHalfEven, ratFloor_eq]
    norm_num
  · rw [calc_skill_score m0 _ _ _ hr hj, calc_context m0 _ _ _ hr hj, hctx0,
      round2_zero, hparse, hextr]
    simp only [List.isEmpty_cons, Bool.not_false, if_true, List.length_cons,
      List.length_nil]
    simp only [round2, roundHalfEven, ratFloor_eq]
    norm_num

/-- C5 (amended): for every input, `overall_score` equals
`round2(0.6·p + 0.4·context_match_score)` where `p` is the UNROUNDED
skill percentage `100·|matched|/|required|` (the claimed formula with
the rounded `skill_match_score` can differ by 0.01); and it lies in
`[0, 100]` provided the model similarity values lie in `[0, 1]`. -/
theorem C5_amended_thm (m : Model)
    (hm : ∀ a b, 0 ≤ m.sim a b ∧ m.sim a b ≤ 1)
    (resume js : Str) (jd : Option Str) :
    (0 ≤ (calculate_comprehensive_score m resume js jd).overall_score ∧
      (calculate_comprehensive_score m resume js jd).overall_score ≤ 100) ∧
    (calculate_comprehensive_score m resume js jd).overall_score =
      round2 ((((calculate_comprehensive_score m resume js jd).matched_skills.length : ℚ) /
          ((parseSkills js).length : ℚ)) * 100 * (6/10) +
        (calculate_comprehensive_score m resume js jd).context_match_score * (4/10)) := by
  by_cases hc : resume = [] ∨ js = []
  · have hcond : (resume.isEmpty || js.isEmpty) = true := by
      rcases hc with h' | h' <;> simp [h']
    simp only [calculate_comprehensive_score, hcond, if_true]
    refine ⟨by norm_num, ?_⟩
    simp only [List.length_nil, Nat.cast_zero, zero_div, zero_mul, zero_add, mul_zero]
    rw [round2_zero]
  · push_neg at hc
    obtain ⟨hr, hj⟩ := hc
    have hctx := contextScore_bounds m hm resume (parseSkills js) jd
    have hsmp : 0 ≤ (if !(parseSkills js).isEmpty then
          (((extract_skills resume js).length : ℚ) /
            ((parseSkills js).length : ℚ)) * 100 else 0) ∧
        (if !(parseSkills js).isEmpty then
          (((extract_skills resume js).length : ℚ) /
            ((parseSkills js).length : ℚ)) * 100 else 0) ≤ 100 := by
      split_ifs with hjobs
      · have hL0 : (parseSkills js).length ≠ 0 := by
          intro h0
          have hn : parseSkills js = [] := List.length_eq_zero.mp h0
          simp [hn] at hjobs
        have hLpos : (0:ℚ) < ((parseSkills js).length : ℚ) := by
          exact_mod_cast Nat.pos_of_ne_zero hL0
        have hle : (extract_skills resume js).length ≤ (parseSkills js).length := by
          rw [extract_eq_filter hr hj]
          exact List.length_filter_le _ _
        constructor
        · positivity
        · have h1 : ((extract_skills resume js).length : ℚ) ≤
              ((parseSkills js).length : ℚ) := by exact_mod_cast hle
          have h2 : ((extract_skills resume js).length : ℚ) /
              ((parseSkills js).length : ℚ) ≤ 1 := by
            rw [div_le_one hLpos]
            exact h1
          nlinarith
      · norm_num
    constructor
    · rw [calc_overall m resume js jd hr hj]
      constructor
      · apply round2_nonneg
        nlinarith [hsmp.1, hctx.1]
      · apply round2_le_hundred
        nlinarith [hsmp.2, hctx.2]
    · rw [calc_overall m resume js jd hr hj, calc_matched m resume js jd hr hj,
        calc_context m resume js jd hr hj, round2_contextScore m resume (parseSkills js) jd]
      by_cases hjobs : (!(parseSkills js).isEmpty) = true
      · rw [if_pos hjobs]
      · rw [if_neg hjobs]
        have hnil : parseSkills js = [] := by
          simpa [List.isEmpty_iff] using hjobs
        rw [hnil]
        simp only [List.length_nil, Nat.cast_zero, div_zero, zero_mul, zero_add]

/-- C5 witness: the amended statement at the constant-half similarity
oracle and a one-skill input. -/
theorem C5_witness :
    (∀ a b : Str, 0 ≤ mW.sim a b ∧ mW.sim a b ≤ 1) ∧
    ((0 ≤ (calculate_comprehensive_score mW (lit "sky") (lit "sky") none).overall_score ∧
      (calculate_comprehensive_score mW (lit "sky") (lit "sky") none).overall_score ≤ 100) ∧
     (calculate_comprehensive_score mW (lit "sky") (lit "sky") none).overall_score =
       round2 ((((calculate_comprehensive_score mW (lit "sky") (lit "sky")
           none).matched_skills.length : ℚ) /
           ((parseSkills (lit "sky")).length : ℚ)) * 100 * (6/10) +
         (calculate_comprehensive_score mW (lit "sky") (lit "sky")
           none).context_match_score * (4/10))) :=
  ⟨fun a b => by constructor <;> norm_num [mW],
    C5_amended_thm mW (fun a b => by constructor <;> norm_num [mW])
      (lit "sky") (lit "sky") none⟩

/-! ### Claim C4 -/

/-- C4 (amended): for non-empty resume text and a non-empty parsed
required list, `skill_match_score = round2(100·|matched|/|required|)`;
it is 0 whenever matched_skills is empty and 100 whenever
missing_skills is empty; and for required lists SHORTER THAN 20000 the
converses also hold (score 0 iff no match, score 100 iff nothing
missing).  For longer lists two-decimal rounding can produce 0.0 with a
non-empty match (see the counterexample). -/
theorem C4_amended_thm (m : Model) (resume js : Str) (jd : Option Str)
    (hr : resume ≠ []) (hp : parseSkills js ≠ []) :
    ((calculate_comprehensive_score m resume js jd).skill_match_score =
      round2 ((((calculate_comprehensive_score m resume js jd).matched_skills.length : ℚ) /
        ((parseSkills js).length : ℚ)) * 100)) ∧
    ((calculate_comprehensive_score m resume js jd).matched_skills = [] →
      (calculate_comprehensive_score m resume js jd).skill_match_score = 0) ∧
    ((calculate_comprehensive_score m resume js jd).missing_skills = [] →
      (calculate_comprehensive_score m resume js jd).skill_match_score = 100) ∧
    ((parseSkills js).length < 20000 →
      (((calculate_comprehensive_score m resume js jd).skill_match_score = 0 ↔
        (calculate_comprehensive_score m resume js jd).matched_skills = []) ∧
       ((calculate_comprehensive_score m resume js jd).skill_match_score = 100 ↔
        (calculate_comprehensive_score m resume js jd).missing_skills = []))) := by
  have hj : js ≠ [] := js_ne_nil_of_parse hp
  have hjobs : (!(parseSkills js).isEmpty) = true := by
    simp [List.isEmpty_iff, hp]
  have hL0 : (parseSkills js).length ≠ 0 := by
    simpa [List.length_eq_zero] using hp
  have hLpos : (0:ℚ) < ((parseSkills js).length : ℚ) := by
    exact_mod_cast Nat.pos_of_ne_zero hL0
  have hEfilter := extract_eq_filter hr hj
  rw [calc_skill_score m resume js jd hr hj, calc_matched m resume js jd hr hj,
    calc_missing m resume js jd hr hj]
  simp only [hjobs, if_true]
  have hzero : extract_skills resume js = [] →
      round2 ((((extract_skills resume js).length : ℚ) /
        ((parseSkills js).length : ℚ)) * 100) = 0 := by
    intro h
    rw [h]
    simp only [List.length_nil, Nat.cast_zero, zero_div, zero_mul]
    exact round2_zero
  have hfull : (parseSkills js).filter
      (fun s => decide (s ∉ extract_skills resume js)) = [] →
      round2 ((((extract_skills resume js).length : ℚ) /
        ((parseSkills js).length : ℚ)) * 100) = 100 := by
    intro hMiss
    have hall : ∀ s ∈ parseSkills js, s ∈ extract_skills resume js := by
      intro s hs
      by_contra hns
      have hmem : s ∈ (parseSkills js).filter
          (fun s => decide (s ∉ extract_skills resume js)) := by
        rw [List.mem_filter]
        exact ⟨hs, by simpa using hns⟩
      rw [hMiss] at hmem
      simp at hmem
    have hEeq : extract_skills resume js = parseSkills js := by
      rw [hEfilter]
      apply List.filter_eq_self.mpr
      intro a ha
      have hmem := hall a ha
      rw [hEfilter, List.mem_filter] at hmem
      exact hmem.2
    rw [hEeq, div_self (ne_of_gt hLpos), one_mul]
    exact round2_hundred
  refine ⟨trivial, hzero, hfull, ?_⟩
  intro hL20
  constructor
  · constructor
    · intro h0
      by_contra hne
      have hlen1 : 1 ≤ (extract_skills resume js).length := by
        cases hEx : extract_skills resume js with
        | nil => exact absurd hEx hne
        | cons a l => simp [hEx]
      have he1 : (1:ℚ) ≤ ((extract_skills resume js).length : ℚ) := by
        exact_mod_cast hlen1
      have hL20Q : ((parseSkills js).length : ℚ) < 20000 := by exact_mod_cast hL20
      have hx : (1:ℚ)/200 < (((extract_skills resume js).length : ℚ) /
          ((parseSkills js).length : ℚ)) * 100 := by
        rw [div_mul_eq_mul_div, lt_div_iff₀ hLpos]
        nlinarith
      exact (ne_of_gt (round2_pos hx)) h0
    · exact hzero
  · constructor
    · intro h100
      by_contra hne
      obtain ⟨s, hsmem⟩ := List.exists_mem_of_ne_nil _ hne
      rw [List.mem_filter] at hsmem
      have hs1 : s ∈ parseSkills js := hsmem.1
      have hs2 : s ∉ extract_skills resume js := by simpa using hsmem.2
      have hsub : (extract_skills resume js).Sublist (parseSkills js) := by
        rw [hEfilter]
        exact List.filter_sublist _
      have hlt : (extract_skills resume js).length < (parseSkills js).length := by
        rcases Nat.lt_or_ge (extract_skills resume js).length
            (parseSkills js).length with h | h
        · exact h
        · exfalso
          have hlen : (extract_skills resume js).length = (parseSkills js).length :=
            le_antisymm hsub.length_le h
          rw [hsub.eq_of_length hlen] at hs2
          exact hs2 hs1
      have heL : ((extract_skills resume js).length : ℚ) ≤
          ((parseSkills js).length : ℚ) - 1 := by
        have h1 : (extract_skills resume js).length + 1 ≤ (parseSkills js).length := hlt
        have h2 : (((extract_skills resume js).length : ℚ) + 1) ≤
            ((parseSkills js).length : ℚ) := by exact_mod_cast h1
        linarith
      have hL20Q : ((parseSkills js).length : ℚ) < 20000 := by exact_mod_cast hL20
      have hx : (((extract_skills resume js).length : ℚ) /
          ((parseSkills js).length : ℚ)) * 100 < 100 - 1/200 := by
        rw [div_mul_eq_mul_div, div_lt_iff₀ hLpos]
        nlinarith
      exact absurd h100 (ne_of_lt (round2_lt_hundred hx))
    · exact hfull


/-- C4 counterexample: with 20001 parsed required skills of which
exactly one (`python`) matches the resume `python`, the unrounded skill
percentage is 100/20001 ≈ 0.005, which rounds to 0.00: so
`skill_match_score = 0` while `matched_skills = ["python"]` is
non-empty, refuting the claimed "skill_match_score == 0 iff
matched_skills is empty". -/
theorem C4_counterexample :
    (calculate_comprehensive_score m0 (lit "python") cexJs none).skill_match_score = 0 ∧
    (calculate_comprehensive_score m0 (lit "python") cexJs none).matched_skills ≠ [] := by
  have h1 : cexTokens ≠ [] := by
    show lit "python" :: List.replicate 20000 (lit "qqqq") ≠ []
    exact List.cons_ne_nil _ _
  have h2 : ∀ t ∈ cexTokens, ',' ∉ t ∧ pyStrip t = t ∧ t ≠ [] := by
    intro t ht
    rcases List.mem_cons.mp ht with rfl | hm
    · exact ⟨by decide, by decide, by decide⟩
    · rw [List.eq_of_mem_replicate hm]
      exact ⟨by decide, by decide, by decide⟩
  have hparse : parseSkills cexJs = cexTokens := by
    show parseSkills (joinWith [','] cexTokens) = cexTokens
    exact parseSkills_join h1 h2
  have hp : parseSkills cexJs ≠ [] := by
    rw [hparse]
    exact h1
  have hj : cexJs ≠ [] := js_ne_nil_of_parse hp
  have hr : (lit "python") ≠ ([] : Str) := by decide
  have hpred1 : skillPred (pyLower (lit "python")) (lit "python") = true := by decide
  have hpred2 : skillPred (pyLower (lit "python")) (lit "qqqq") = false := by
    with_unfolding_all decide
  have hextr : extract_skills (lit "python") cexJs = [lit "python"] := by
    rw [extract_eq_filter hr hj, hparse]
    show (lit "python" :: List.replicate 20000 (lit "qqqq")).filter
        (skillPred (pyLower (lit "python"))) = [lit "python"]
    rw [List.filter_cons, List.filter_replicate, hpred1, hpred2]
    simp only [eq_self_iff_true, if_true, Bool.false_eq_true, if_false]
  have hlen : (parseSkills cexJs).length = 20001 := by
    rw [hparse]
    show (lit "python" :: List.replicate 20000 (lit "qqqq")).length = 20001
    rw [List.length_cons, List.length_replicate]
  constructor
  · rw [calc_skill_score m0 _ _ none hr hj]
    have hjobs : (!(parseSkills cexJs).isEmpty) = true := by
      rw [hparse]
      show (!(lit "python" :: List.replicate 20000 (lit "qqqq")).isEmpty) = true
      rw [List.isEmpty_cons]
      rfl
    simp only [hjobs, if_true]
    rw [hextr, hlen]
    simp only [List.length_singleton]
    simp only [round2, roundHalfEven, ratFloor_eq]
    norm_num
  · rw [calc_matched m0 _ _ none hr hj, hextr]
    simp

/-- C4 witness: the amended statement at end-to-end inputs with 3
required skills of which 2 match. -/
theorem C4_witness :
    (lit "i have python and sql") ≠ ([] : Str) ∧
    parseSkills (lit "Python, SQL, Java") ≠ [] ∧
    (((calculate_comprehensive_score m0 (lit "i have python and sql")
        (lit "Python, SQL, Java") none).skill_match_score =
      round2 ((((calculate_comprehensive_score m0 (lit "i have python and sql")
          (lit "Python, SQL, Java") none).matched_skills.length : ℚ) /
        ((parseSkills (lit "Python, SQL, Java")).length : ℚ)) * 100)) ∧
    ((calculate_comprehensive_score m0 (lit "i have python and sql")
        (lit "Python, SQL, Java") none).matched_skills = [] →
      (calculate_comprehensive_score m0 (lit "i have python and sql")
        (lit "Python, SQL, Java") none).skill_match_score = 0) ∧
    ((calculate_comprehensive_score m0 (lit "i have python and sql")
        (lit "Python, SQL, Java") none).missing_skills = [] →
      (calculate_comprehensive_score m0 (lit "i have python and sql")
        (lit "Python, SQL, Java") none).skill_match_score = 100) ∧
    ((parseSkills (lit "Python, SQL, Java")).length < 20000 →
      (((calculate_comprehensive_score m0 (lit "i have python and sql")
          (lit "Python, SQL, Java") none).skill_match_score = 0 ↔
        (calculate_comprehensive_score m0 (lit "i have python and sql")
          (lit "Python, SQL, Java") none).matched_skills = []) ∧
       ((calculate_comprehensive_score m0 (lit "i have python and sql")
          (lit "Python, SQL, Java") none).skill_match_score = 100 ↔
        (calculate_comprehensive_score m0 (lit "i have python and sql")
          (lit "Python, SQL, Java") none).missing_skills = [])))) :=
  ⟨by decide, by decide,
    C4_amended_thm m0 (lit "i have python and sql") (lit "Python, SQL, Java")
      none (by decide) (by decide)⟩
